import Mathlib

/-!
# Spike statistics: the detector state machine and the interval pipeline

A shallow embedding of `SpikeStats::execute`, `SpikeStats::countspikes` and
`SpikeStats::reset` (src/spike-statistics.cpp; src/legacy/SpikeStats.cpp has
the same three bodies, plus a `printf`).

Modelling conventions.

* A C++ `double` that holds a finite value is an exact rational (`ℚ`); the
  comparisons `>` and `<` are the order of `ℚ`.  Rounding is outside the model.
* `int state` is an `ℤ`.
* The result of the one division of `execute`, `std() / mean()`, is an
  `Option ℚ`: `some q` is the finite quotient, `none` is what the IEEE
  division yields for a zero divisor (a NaN or an infinity, no finite value).
* `input(0)` and `RT::OS::getTime()` are arguments of `execute`, the value it
  writes to `output(0)` is the second component of its result.
* The class `RunningStat` (include/runningstat.h) is not among the sources and
  is modelled from the specification, section 4.2; its `std()` reading, a
  square root, is a parameter of `execute`.
-/

namespace SpikeStatistics

/-! ## The running-statistics accumulator -/

/-- Modelled from the spec: the accumulator `RunningStat` of
include/runningstat.h, which is missing from the sources.  Section 3 and 4.2
give it the fields `count`, `mean` and `sumSquaredDelta`. -/
structure RunningStat where
  count : ℕ
  mean : ℚ
  sumSquaredDelta : ℚ
  deriving DecidableEq

/-- Modelled from the spec: `clear()` of the missing `RunningStat`,
"resets `count = 0, mean = 0, sumSquaredDelta = 0` atomically". -/
def RunningStat.clear (_r : RunningStat) : RunningStat :=
  { count := 0, mean := 0, sumSquaredDelta := 0 }

/-- Modelled from the spec: `push(x)` of the missing `RunningStat`,
"increments `count`; `delta = x − mean; mean += delta/count;
delta2 = x − mean; sumSquaredDelta += delta*delta2`". -/
def RunningStat.push (r : RunningStat) (x : ℚ) : RunningStat :=
  let count := r.count + 1
  let delta := x - r.mean
  let mean := r.mean + delta / (count : ℚ)
  let delta2 := x - mean
  { count := count, mean := mean, sumSquaredDelta := r.sumSquaredDelta + delta * delta2 }

/-- The division `a / b` of two doubles: the finite quotient, or `none` (a NaN
or an infinity) when the divisor is zero. -/
def fdiv (a b : ℚ) : Option ℚ :=
  if b = 0 then none else some (a / b)

/-! ## The module -/

/-- The data members of `class SpikeStats` (src/SpikeStats.h). -/
structure SpikeStats where
  thresh : ℚ
  min_int : ℚ
  spktime : ℚ
  prevspktime : ℚ
  runningPeriod : RunningStat
  ISI : ℚ
  ISImean : ℚ
  ISIstd : ℚ
  CV : Option ℚ
  spikecount : ℚ
  state : ℤ
  systime : ℚ
  dt : ℚ
  deriving DecidableEq

/-- The `switch (state)` of `execute`, lines 71-99: the new value of `state`
from the old one, the sample `input(0)`, `thresh`, `systime - spktime` and
`min_int`. -/
def nextState (state : ℤ) (input thresh elapsed min_int : ℚ) : ℤ :=
  if state = 0 then
    if input > thresh then 1 else state
  else if state = 1 then 2
  else if state = 2 then
    if input > thresh ∧ elapsed > 100 then 4
    else if input < thresh then 3
    else state
  else if state = 3 then -1
  else if state = 4 then
    if input < thresh then -1 else state
  else if state = -1 then
    if elapsed > min_int then 0 else state
  else state

/-- The body of `SpikeStats::countspikes`. -/
def countspikes (s : SpikeStats) : SpikeStats :=
  let s1 := { s with prevspktime := s.spktime }
  let s2 := { s1 with spktime := s1.systime }
  let s3 := { s2 with ISI := (s2.spktime - s2.prevspktime) * 1e-6 }
  { s3 with spikecount := s3.spikecount + 1 }

/-- The statements of `execute` up to and including `if (state == 1)
countspikes();`: the clock is read, the switch is run, the event is counted. -/
def detect (input now : ℚ) (s : SpikeStats) : SpikeStats :=
  let s1 := { s with systime := now }
  let s2 := { s1 with
    state := nextState s1.state input s1.thresh (s1.systime - s1.spktime) s1.min_int }
  if s2.state = 1 then countspikes s2 else s2

/-- The block `if (spikecount > 2) { ... }` of `execute`, lines 103-108. -/
def accumulate (std : RunningStat → ℚ) (s : SpikeStats) : SpikeStats :=
  if s.spikecount > 2 then
    let rp := s.runningPeriod.push s.ISI
    { s with
      runningPeriod := rp
      ISImean := rp.mean
      ISIstd := std rp
      CV := fdiv (std rp) rp.mean }
  else s

/-- The body of `SpikeStats::execute`: the new module state and the value
written to `output(0)`.  `std` is the `std()` reading of the accumulator. -/
def execute (std : RunningStat → ℚ) (input now : ℚ) (s : SpikeStats) : SpikeStats × ℚ :=
  let s' := accumulate std (detect input now s)
  (s', s'.ISI)

/-- The body of `SpikeStats::reset`, also run by `update(UNPAUSE)`. -/
def reset (s : SpikeStats) : SpikeStats :=
  { s with
    runningPeriod := s.runningPeriod.clear
    CV := some 0
    systime := 0
    state := 0
    ISI := 0
    ISImean := 0
    ISIstd := 0
    spikecount := 0
    spktime := 0
    prevspktime := 0 }

/-- The flags of `DefaultGUIModel::update_flags_t` that `update` is called with. -/
inductive UpdateFlag where
  | INIT | MODIFY | PERIOD | PAUSE | UNPAUSE | EXIT
  deriving DecidableEq

/-- What `update` reads from the host: the two parameter fields of the panel
(in mV and ms) and the period of the real-time system (in ns). -/
structure Host where
  thresholdParameter : ℚ
  minIntervalParameter : ℚ
  period : ℚ

/-- The body of `SpikeStats::update`, on the data members (the calls that only
fill the panel are left out). -/
def update (flag : UpdateFlag) (host : Host) (s : SpikeStats) : SpikeStats :=
  match flag with
  | .INIT => s
  | .MODIFY =>
    { s with
      thresh := host.thresholdParameter / 1000
      min_int := host.minIntervalParameter / 1000 }
  | .PAUSE => s
  | .UNPAUSE => reset s
  | .PERIOD => { s with dt := host.period * 1e-9 }
  | .EXIT => s

/-! ## The transition table of the specification -/

/-- The detector states named by the specification, sections 3 and 4.1. -/
inductive DetectorState where
  | Idle | CrossedUp | Confirming | RefractoryPendingLow | RefractoryPendingHigh
  | RefractoryActive
  deriving DecidableEq

/-- The integer that stands for each named state: Idle=0, CrossedUp=1,
Confirming=2, RefractoryPending-low=3, RefractoryPending-high=4,
RefractoryActive=-1. -/
def DetectorState.code : DetectorState → ℤ
  | .Idle => 0
  | .CrossedUp => 1
  | .Confirming => 2
  | .RefractoryPendingLow => 3
  | .RefractoryPendingHigh => 4
  | .RefractoryActive => -1

/-- The table of section 4.1 of the specification, row by row, written from
the words of the specification and not from the source. -/
def transition (d : DetectorState) (sample threshold elapsed minInterval : ℚ) :
    DetectorState :=
  match d with
  | .Idle => if sample > threshold then .CrossedUp else .Idle
  | .CrossedUp => .Confirming
  | .Confirming =>
    if sample > threshold ∧ elapsed > 100 then .RefractoryPendingHigh
    else if sample < threshold then .RefractoryPendingLow
    else .Confirming
  | .RefractoryPendingHigh =>
    if sample < threshold then .RefractoryActive else .RefractoryPendingHigh
  | .RefractoryPendingLow => .RefractoryActive
  | .RefractoryActive => if elapsed > minInterval then .Idle else .RefractoryActive

/-! ## Traces of ticks -/

/-- One timestep: the sample read from `input(0)` and the clock reading. -/
structure Tick where
  input : ℚ
  now : ℚ
  deriving DecidableEq

/-- An event is confirmed in a tick when `countspikes` is called, that is when
the switch leaves `state` at 1. -/
def confirms (k : Tick) (s : SpikeStats) : Prop :=
  nextState s.state k.input s.thresh (k.now - s.spktime) s.min_int = 1

instance (k : Tick) (s : SpikeStats) : Decidable (confirms k s) := by
  unfold confirms; infer_instance

/-- The module state after `execute` has run once per tick of the trace. -/
def run (std : RunningStat → ℚ) : List Tick → SpikeStats → SpikeStats
  | [], s => s
  | k :: ks, s => run std ks (execute std k.input k.now s).1

/-- The values written to `output(0)`, one per tick of the trace. -/
def outputs (std : RunningStat → ℚ) : List Tick → SpikeStats → List ℚ
  | [], _ => []
  | k :: ks, s =>
    (execute std k.input k.now s).2 :: outputs std ks (execute std k.input k.now s).1

/-- The number of ticks of the trace in which an event is confirmed. -/
def eventCount (std : RunningStat → ℚ) : List Tick → SpikeStats → ℕ
  | [], _ => 0
  | k :: ks, s =>
    (if confirms k s then 1 else 0) + eventCount std ks (execute std k.input k.now s).1

/-- The timestamps of a trace are non-decreasing. -/
def nondecreasing (trace : List Tick) : Prop :=
  List.Pairwise (fun a b : ℚ => a ≤ b) (trace.map Tick.now)

instance (trace : List Tick) : Decidable (nondecreasing trace) := by
  unfold nondecreasing; infer_instance

/-- A module state used in examples: everything zero, threshold `thresh`,
minimum interval `min_int`. -/
def sample (thresh min_int : ℚ) : SpikeStats :=
  { thresh := thresh, min_int := min_int, spktime := 0, prevspktime := 0,
    runningPeriod := { count := 0, mean := 0, sumSquaredDelta := 0 },
    ISI := 0, ISImean := 0, ISIstd := 0, CV := some 0, spikecount := 0,
    state := 0, systime := 0, dt := 0 }

/-- A module as the constructor leaves it (`thresh(-0.02)`, `min_int(5e-3)`,
then `initParameters`, which calls `reset`), with period `dt`. -/
def fresh (dt : ℚ) : SpikeStats :=
  { sample (-0.02) 5e-3 with dt := dt }

/-- A module that has run for a while: every data member holds some value
left by earlier ticks. -/
def populated (dt : ℚ) : SpikeStats :=
  { thresh := -0.02, min_int := 5e-3, spktime := 9000000, prevspktime := 6000000,
    runningPeriod := { count := 4, mean := 3, sumSquaredDelta := 2 },
    ISI := 3, ISImean := 3, ISIstd := 1, CV := some (1 / 3), spikecount := 4,
    state := -1, systime := 9500000, dt := dt }

/-- A `std()` reading for the examples, none of which looks at its value. -/
def noStd : RunningStat → ℚ := fun _ => 0

/-- A spike around 1 ms and a second one around 6 ms, seen by a fresh module:
rest, crossing at 1000000 ns, peak, three samples back at rest, crossing at
6000000 ns. -/
def twoSpikes : List Tick :=
  [⟨-0.07, 0⟩, ⟨0.01, 1000000⟩, ⟨0.02, 2000000⟩, ⟨-0.07, 3000000⟩,
   ⟨-0.07, 4000000⟩, ⟨-0.07, 5000000⟩, ⟨0.01, 6000000⟩]

/-- Two spikes 1 ms apart seen by a fresh module: rest, crossing at
1000000 ns, peak, three samples back at rest, crossing at 2000000 ns, one
tick every 200000 ns. -/
def closeSpikes : List Tick :=
  [⟨-0.07, 800000⟩, ⟨0.01, 1000000⟩, ⟨0.02, 1200000⟩, ⟨-0.07, 1400000⟩,
   ⟨-0.07, 1600000⟩, ⟨-0.07, 1800000⟩, ⟨0.01, 2000000⟩]

/-- Three spikes, around 1 ms, 6 ms and 11 ms, seen by a fresh module. -/
def threeSpikes : List Tick :=
  twoSpikes ++
    [⟨0.02, 7000000⟩, ⟨-0.07, 8000000⟩, ⟨-0.07, 9000000⟩, ⟨-0.07, 10000000⟩,
     ⟨0.01, 11000000⟩]

theorem nextState_eq_one_iff (state : ℤ) (input thresh elapsed min_int : ℚ) :
    nextState state input thresh elapsed min_int = 1 ↔ state = 0 ∧ input > thresh := by
  unfold nextState
  split_ifs <;> simp_all

theorem nextState_eq_zero_iff (state : ℤ) (input thresh elapsed min_int : ℚ) :
    nextState state input thresh elapsed min_int = 0 ↔
      (state = 0 ∧ ¬ input > thresh) ∨ (state = -1 ∧ elapsed > min_int) := by
  unfold nextState
  split_ifs <;> simp_all

theorem confirms_iff (k : Tick) (s : SpikeStats) :
    confirms k s ↔ s.state = 0 ∧ k.input > s.thresh := by
  unfold confirms
  exact nextState_eq_one_iff _ _ _ _ _

theorem detect_of_confirms (input now : ℚ) (s : SpikeStats)
    (h : confirms ⟨input, now⟩ s) :
    detect input now s =
      { s with
        systime := now, state := 1, prevspktime := s.spktime, spktime := now,
        ISI := (now - s.spktime) * 1e-6, spikecount := s.spikecount + 1 } := by
  unfold confirms at h
  simp only at h
  simp [detect, countspikes, h]

theorem detect_of_not_confirms (input now : ℚ) (s : SpikeStats)
    (h : ¬ confirms ⟨input, now⟩ s) :
    detect input now s =
      { s with
        systime := now
        state := nextState s.state input s.thresh (now - s.spktime) s.min_int } := by
  unfold confirms at h
  simp only at h
  simp [detect, h]

@[simp] theorem detect_thresh (input now : ℚ) (s : SpikeStats) :
    (detect input now s).thresh = s.thresh := by
  by_cases h : confirms ⟨input, now⟩ s
  · rw [detect_of_confirms input now s h]
  · rw [detect_of_not_confirms input now s h]

@[simp] theorem detect_min_int (input now : ℚ) (s : SpikeStats) :
    (detect input now s).min_int = s.min_int := by
  by_cases h : confirms ⟨input, now⟩ s
  · rw [detect_of_confirms input now s h]
  · rw [detect_of_not_confirms input now s h]

@[simp] theorem detect_dt (input now : ℚ) (s : SpikeStats) :
    (detect input now s).dt = s.dt := by
  by_cases h : confirms ⟨input, now⟩ s
  · rw [detect_of_confirms input now s h]
  · rw [detect_of_not_confirms input now s h]

@[simp] theorem detect_systime (input now : ℚ) (s : SpikeStats) :
    (detect input now s).systime = now := by
  by_cases h : confirms ⟨input, now⟩ s
  · rw [detect_of_confirms input now s h]
  · rw [detect_of_not_confirms input now s h]

@[simp] theorem detect_state (input now : ℚ) (s : SpikeStats) :
    (detect input now s).state =
      nextState s.state input s.thresh (now - s.spktime) s.min_int := by
  by_cases h : confirms ⟨input, now⟩ s
  · rw [detect_of_confirms input now s h]
    exact h.symm
  · rw [detect_of_not_confirms input now s h]

@[simp] theorem detect_runningPeriod (input now : ℚ) (s : SpikeStats) :
    (detect input now s).runningPeriod = s.runningPeriod := by
  by_cases h : confirms ⟨input, now⟩ s
  · rw [detect_of_confirms input now s h]
  · rw [detect_of_not_confirms input now s h]

@[simp] theorem detect_ISImean (input now : ℚ) (s : SpikeStats) :
    (detect input now s).ISImean = s.ISImean := by
  by_cases h : confirms ⟨input, now⟩ s
  · rw [detect_of_confirms input now s h]
  · rw [detect_of_not_confirms input now s h]

@[simp] theorem detect_ISIstd (input now : ℚ) (s : SpikeStats) :
    (detect input now s).ISIstd = s.ISIstd := by
  by_cases h : confirms ⟨input, now⟩ s
  · rw [detect_of_confirms input now s h]
  · rw [detect_of_not_confirms input now s h]

@[simp] theorem detect_CV (input now : ℚ) (s : SpikeStats) :
    (detect input now s).CV = s.CV := by
  by_cases h : confirms ⟨input, now⟩ s
  · rw [detect_of_confirms input now s h]
  · rw [detect_of_not_confirms input now s h]

@[simp] theorem accumulate_thresh (std : RunningStat → ℚ) (s : SpikeStats) :
    (accumulate std s).thresh = s.thresh := by
  unfold accumulate; split_ifs <;> rfl

@[simp] theorem accumulate_min_int (std : RunningStat → ℚ) (s : SpikeStats) :
    (accumulate std s).min_int = s.min_int := by
  unfold accumulate; split_ifs <;> rfl

@[simp] theorem accumulate_dt (std : RunningStat → ℚ) (s : SpikeStats) :
    (accumulate std s).dt = s.dt := by
  unfold accumulate; split_ifs <;> rfl

@[simp] theorem accumulate_systime (std : RunningStat → ℚ) (s : SpikeStats) :
    (accumulate std s).systime = s.systime := by
  unfold accumulate; split_ifs <;> rfl

@[simp] theorem accumulate_state (std : RunningStat → ℚ) (s : SpikeStats) :
    (accumulate std s).state = s.state := by
  unfold accumulate; split_ifs <;> rfl

@[simp] theorem accumulate_spktime (std : RunningStat → ℚ) (s : SpikeStats) :
    (accumulate std s).spktime = s.spktime := by
  unfold accumulate; split_ifs <;> rfl

@[simp] theorem accumulate_prevspktime (std : RunningStat → ℚ) (s : SpikeStats) :
    (accumulate std s).prevspktime = s.prevspktime := by
  unfold accumulate; split_ifs <;> rfl

@[simp] theorem accumulate_spikecount (std : RunningStat → ℚ) (s : SpikeStats) :
    (accumulate std s).spikecount = s.spikecount := by
  unfold accumulate; split_ifs <;> rfl

@[simp] theorem accumulate_ISI (std : RunningStat → ℚ) (s : SpikeStats) :
    (accumulate std s).ISI = s.ISI := by
  unfold accumulate; split_ifs <;> rfl

@[simp] theorem execute_fst (std : RunningStat → ℚ) (input now : ℚ) (s : SpikeStats) :
    (execute std input now s).1 = accumulate std (detect input now s) := rfl

@[simp] theorem execute_snd (std : RunningStat → ℚ) (input now : ℚ) (s : SpikeStats) :
    (execute std input now s).2 = (detect input now s).ISI := by
  simp [execute]

@[simp] theorem run_nil (std : RunningStat → ℚ) (s : SpikeStats) : run std [] s = s := rfl

@[simp] theorem run_cons (std : RunningStat → ℚ) (k : Tick) (ks : List Tick)
    (s : SpikeStats) :
    run std (k :: ks) s = run std ks (accumulate std (detect k.input k.now s)) := rfl

theorem run_append (std : RunningStat → ℚ) (l₁ l₂ : List Tick) (s : SpikeStats) :
    run std (l₁ ++ l₂) s = run std l₂ (run std l₁ s) := by
  induction l₁ generalizing s with
  | nil => rfl
  | cons k ks ih => simp [ih]

@[simp] theorem run_thresh (std : RunningStat → ℚ) (l : List Tick) (s : SpikeStats) :
    (run std l s).thresh = s.thresh := by
  induction l generalizing s with
  | nil => rfl
  | cons k ks ih => simp [ih]

theorem detect_keeps_of_not_confirms (input now : ℚ) (s : SpikeStats)
    (h : ¬ confirms ⟨input, now⟩ s) :
    (detect input now s).spktime = s.spktime ∧
    (detect input now s).prevspktime = s.prevspktime ∧
    (detect input now s).spikecount = s.spikecount ∧
    (detect input now s).ISI = s.ISI := by
  rw [detect_of_not_confirms input now s h]
  exact ⟨rfl, rfl, rfl, rfl⟩

theorem detect_counts_of_confirms (input now : ℚ) (s : SpikeStats)
    (h : confirms ⟨input, now⟩ s) :
    (detect input now s).spktime = now ∧
    (detect input now s).prevspktime = s.spktime ∧
    (detect input now s).spikecount = s.spikecount + 1 ∧
    (detect input now s).ISI = (now - s.spktime) * 1e-6 ∧
    (detect input now s).state = 1 := by
  rw [detect_of_confirms input now s h]
  exact ⟨rfl, rfl, rfl, rfl, rfl⟩

/-- While the detector is idle and the samples stay at or below the threshold,
nothing is confirmed and the event record is not touched. -/
theorem run_idle_lows (std : RunningStat → ℚ) (lows : List Tick) (s : SpikeStats)
    (hidle : s.state = 0) (hlow : ∀ k ∈ lows, k.input ≤ s.thresh) :
    (run std lows s).state = 0 ∧ (run std lows s).spktime = s.spktime ∧
    (run std lows s).prevspktime = s.prevspktime ∧
    (run std lows s).spikecount = s.spikecount ∧
    (run std lows s).ISI = s.ISI ∧ eventCount std lows s = 0 := by
  induction lows generalizing s with
  | nil => simp [eventCount, hidle]
  | cons k ks ih =>
    have hk : k.input ≤ s.thresh := hlow k (List.mem_cons_self _ _)
    have hnot : ¬ confirms k s := by
      rw [confirms_iff]
      intro h
      exact absurd h.2 (not_lt.mpr hk)
    have hkeep := detect_keeps_of_not_confirms k.input k.now s hnot
    have hst : (accumulate std (detect k.input k.now s)).state = 0 := by
      simp [nextState, hidle, not_lt.mpr hk]
    have hrest : ∀ k' ∈ ks, k'.input ≤ (accumulate std (detect k.input k.now s)).thresh := by
      intro k' hk'
      simpa using hlow k' (List.mem_cons_of_mem _ hk')
    have := ih (accumulate std (detect k.input k.now s)) hst hrest
    simp only [run_cons, eventCount, execute_fst, if_neg hnot, zero_add]
    simp only [accumulate_spktime, accumulate_prevspktime, accumulate_spikecount,
      accumulate_ISI] at this
    rw [hkeep.1, hkeep.2.1, hkeep.2.2.1, hkeep.2.2.2] at this
    exact this

theorem eventCount_append (std : RunningStat → ℚ) (l₁ l₂ : List Tick) (s : SpikeStats) :
    eventCount std (l₁ ++ l₂) s = eventCount std l₁ s + eventCount std l₂ (run std l₁ s) := by
  induction l₁ generalizing s with
  | nil => simp [eventCount]
  | cons k ks ih => simp [eventCount, ih, Nat.add_assoc]

theorem nondecreasing_cons (k : Tick) (ks : List Tick) :
    nondecreasing (k :: ks) ↔ (∀ k' ∈ ks, k.now ≤ k'.now) ∧ nondecreasing ks := by
  simp [nondecreasing, List.pairwise_cons]

theorem nondecreasing_take (n : ℕ) (trace : List Tick) (h : nondecreasing trace) :
    nondecreasing (trace.take n) := by
  unfold nondecreasing at *
  rw [List.map_take]
  exact h.sublist (List.take_sublist _ _)

/-- With a clock that does not run backwards, the two recorded event times
stay ordered and never lie ahead of the clock. -/
theorem run_event_record_ordered (std : RunningStat → ℚ) (l : List Tick) (s : SpikeStats)
    (h1 : s.prevspktime ≤ s.spktime) (h2 : s.spktime ≤ s.systime)
    (hge : ∀ k ∈ l, s.systime ≤ k.now) (hmono : nondecreasing l) :
    (run std l s).prevspktime ≤ (run std l s).spktime ∧
    (run std l s).spktime ≤ (run std l s).systime := by
  induction l generalizing s with
  | nil => exact ⟨h1, h2⟩
  | cons k ks ih =>
    rw [nondecreasing_cons] at hmono
    have hk : s.systime ≤ k.now := hge k (List.mem_cons_self _ _)
    rw [run_cons]
    apply ih
    · rw [accumulate_prevspktime, accumulate_spktime]
      by_cases hc : confirms ⟨k.input, k.now⟩ s
      · have := detect_counts_of_confirms k.input k.now s hc
        rw [this.1, this.2.1]
        exact le_trans h2 hk
      · have := detect_keeps_of_not_confirms k.input k.now s hc
        rw [this.1, this.2.1]
        exact h1
    · rw [accumulate_spktime, accumulate_systime, detect_systime]
      by_cases hc : confirms ⟨k.input, k.now⟩ s
      · rw [(detect_counts_of_confirms k.input k.now s hc).1]
      · rw [(detect_keeps_of_not_confirms k.input k.now s hc).1]
        exact le_trans h2 hk
    · intro k' hk'
      rw [accumulate_systime, detect_systime]
      exact hmono.1 k' hk'
    · exact hmono.2

/-- The counter `spikecount` grows by the number of confirmed events. -/
theorem run_spikecount (std : RunningStat → ℚ) (l : List Tick) (s : SpikeStats) :
    (run std l s).spikecount = s.spikecount + (eventCount std l s : ℚ) := by
  induction l generalizing s with
  | nil => simp [eventCount]
  | cons k ks ih =>
    rw [run_cons, ih, accumulate_spikecount]
    by_cases hc : confirms k s
    · rw [(detect_counts_of_confirms k.input k.now s hc).2.2.1]
      simp only [eventCount, execute_fst, if_pos hc]
      push_cast
      ring
    · rw [(detect_keeps_of_not_confirms k.input k.now s hc).2.2.1]
      simp only [eventCount, execute_fst, if_neg hc]
      push_cast
      ring

theorem accumulate_of_le_two (std : RunningStat → ℚ) (s : SpikeStats)
    (h : s.spikecount ≤ 2) : accumulate std s = s := by
  unfold accumulate
  rw [if_neg (not_lt.mpr h)]

/-- As long as the counter does not pass 2 nothing reaches the accumulator and
the three statistics keep their values. -/
theorem run_without_push (std : RunningStat → ℚ) (l : List Tick) (s : SpikeStats)
    (h : s.spikecount + (eventCount std l s : ℚ) ≤ 2) :
    (run std l s).runningPeriod = s.runningPeriod ∧
    (run std l s).ISImean = s.ISImean ∧
    (run std l s).ISIstd = s.ISIstd ∧
    (run std l s).CV = s.CV := by
  induction l generalizing s with
  | nil => exact ⟨rfl, rfl, rfl, rfl⟩
  | cons k ks ih =>
    have hsplit : eventCount std (k :: ks) s =
        (if confirms k s then 1 else 0) +
          eventCount std ks (accumulate std (detect k.input k.now s)) := rfl
    have hcount : (accumulate std (detect k.input k.now s)).spikecount =
        s.spikecount + ((if confirms k s then 1 else 0 : ℕ) : ℚ) := by
      rw [accumulate_spikecount]
      by_cases hc : confirms k s
      · rw [(detect_counts_of_confirms k.input k.now s hc).2.2.1, if_pos hc]
        push_cast
        ring
      · rw [(detect_keeps_of_not_confirms k.input k.now s hc).2.2.1, if_neg hc]
        push_cast
        ring
    rw [hsplit] at h
    push_cast at h
    have hnn : (0 : ℚ) ≤ (eventCount std ks (accumulate std (detect k.input k.now s)) : ℚ) :=
      Nat.cast_nonneg _
    have hle : (detect k.input k.now s).spikecount ≤ 2 := by
      rw [← accumulate_spikecount std, hcount]
      push_cast
      linarith
    have hacc := accumulate_of_le_two std (detect k.input k.now s) hle
    have hrest := ih (accumulate std (detect k.input k.now s)) (by
      rw [hcount]
      push_cast
      linarith)
    rw [run_cons]
    rw [hacc] at hrest ⊢
    simpa using hrest

/-- C5: the state update of `execute` is the total function `nextState` of
(state, sample, threshold, now - spktime, min_int); under the mapping Idle=0,
CrossedUp=1, Confirming=2, RefractoryPending-low=3, RefractoryPending-high=4,
RefractoryActive=-1 it equals the table of section 4.1 of the specification;
Confirming holds exactly when sample = threshold, or sample > threshold and
elapsed <= 100; every integer state outside -1..4 is left unchanged. -/
theorem nextState_conforms_to_table :
    (∀ (std : RunningStat → ℚ) (input now : ℚ) (s : SpikeStats),
      (execute std input now s).1.state =
        nextState s.state input s.thresh (now - s.spktime) s.min_int) ∧
    (∀ (d : DetectorState) (sample threshold elapsed min_int : ℚ),
      nextState d.code sample threshold elapsed min_int =
        (transition d sample threshold elapsed min_int).code) ∧
    (∀ (sample threshold elapsed min_int : ℚ),
      nextState DetectorState.Confirming.code sample threshold elapsed min_int =
          DetectorState.Confirming.code ↔
        (sample = threshold ∨ (sample > threshold ∧ elapsed ≤ 100))) ∧
    (∀ (state : ℤ) (sample threshold elapsed min_int : ℚ),
      state ≠ -1 → state ≠ 0 → state ≠ 1 → state ≠ 2 → state ≠ 3 → state ≠ 4 →
      nextState state sample threshold elapsed min_int = state) := by
  refine ⟨?_, ?_, ?_, ?_⟩
  · intro std input now s
    simp
  · intro d sample threshold elapsed min_int
    cases d <;> simp only [DetectorState.code, nextState, transition] <;>
      split_ifs <;> simp_all [DetectorState.code]
  · intro sample threshold elapsed min_int
    simp only [DetectorState.code, nextState]
    constructor
    · intro h
      rcases lt_trichotomy sample threshold with hlt | heq | hgt
      · have hn : ¬ threshold < sample := not_lt.mpr (le_of_lt hlt)
        simp [hlt, hn] at h
      · exact Or.inl heq
      · refine Or.inr ⟨hgt, ?_⟩
        by_contra hel
        have hel' : (100 : ℚ) < elapsed := not_le.mp hel
        simp [hgt, hel'] at h
    · rintro (h | ⟨h1, h2⟩)
      · subst h
        simp
      · have : ¬ sample < threshold := not_lt.mpr (le_of_lt h1)
        simp [not_lt.mpr h2, this]
  · intro state sample threshold elapsed min_int hm h0 h1 h2 h3 h4
    simp [nextState, hm, h0, h1, h2, h3, h4]

/-- At state 7, outside -1..4, the switch falls to `default` and the state
stays 7. -/
theorem nextState_conforms_to_table_witness :
    nextState 7 1 0 200 5 = 7 :=
  nextState_conforms_to_table.2.2.2 7 1 0 200 5
    (by decide) (by decide) (by decide) (by decide) (by decide) (by decide)

/-! ## Reset -/

/-- C9: from every module state `reset` (which is also what `update` runs on
UNPAUSE) yields state 0, spktime = prevspktime = 0, spikecount = 0,
ISI = ISImean = ISIstd = CV = 0 and a cleared accumulator, and keeps thresh and
min_int (and dt); it is idempotent; two modules that agree on the fields
`reset` does not write are equal after `reset`, and so are their states and
outputs after every subsequent sequence of ticks. -/
theorem reset_yields_start_state (s₁ s₂ : SpikeStats) (host : Host)
    (hthresh : s₁.thresh = s₂.thresh) (hmin : s₁.min_int = s₂.min_int)
    (hdt : s₁.dt = s₂.dt) :
    reset s₁ =
      { thresh := s₁.thresh, min_int := s₁.min_int, spktime := 0, prevspktime := 0,
        runningPeriod := { count := 0, mean := 0, sumSquaredDelta := 0 },
        ISI := 0, ISImean := 0, ISIstd := 0, CV := some 0, spikecount := 0,
        state := 0, systime := 0, dt := s₁.dt } ∧
    update UpdateFlag.UNPAUSE host s₁ = reset s₁ ∧
    reset (reset s₁) = reset s₁ ∧
    reset s₁ = reset s₂ ∧
    ∀ (std : RunningStat → ℚ) (trace : List Tick),
      run std trace (reset s₁) = run std trace (reset s₂) ∧
      outputs std trace (reset s₁) = outputs std trace (reset s₂) := by
  have heq : reset s₁ = reset s₂ := by
    simp [reset, RunningStat.clear, hthresh, hmin, hdt]
  refine ⟨rfl, rfl, rfl, heq, ?_⟩
  intro std trace
  rw [heq]
  exact ⟨rfl, rfl⟩

/-- A fresh module and a populated one with the same parameters and period
are the same module after `reset`. -/
theorem reset_yields_start_state_witness :
    reset (fresh 1e-3) = reset (populated 1e-3) ∧
    run noStd twoSpikes (reset (fresh 1e-3)) =
      run noStd twoSpikes (reset (populated 1e-3)) :=
  have h := reset_yields_start_state (fresh 1e-3) (populated 1e-3) ⟨-20, 5, 1000000⟩
    rfl rfl rfl
  ⟨h.2.2.2.1, (h.2.2.2.2 noStd twoSpikes).1⟩

/-! ## The interval of a confirmed event -/

/-- C8: in a tick that confirms an event at timestamp `now`, `countspikes`
sets prevspktime to the old spktime, spktime to `now`, adds one to spikecount
and sets ISI = (now - old spktime) * 1e-6, and `execute` writes that ISI to the
output; when the previous event is at 1000000 ns and the event is confirmed at
6000000 ns the interval is 5, as it is on the trace `twoSpikes`. -/
theorem confirmed_event_interval (std : RunningStat → ℚ) (input now : ℚ) (s : SpikeStats)
    (h : confirms ⟨input, now⟩ s) :
    (execute std input now s).1.prevspktime = s.spktime ∧
    (execute std input now s).1.spktime = now ∧
    (execute std input now s).1.spikecount = s.spikecount + 1 ∧
    (execute std input now s).1.ISI = (now - s.spktime) * 1e-6 ∧
    (execute std input now s).2 = (now - s.spktime) * 1e-6 ∧
    (countspikes s).prevspktime = s.spktime ∧
    (countspikes s).spktime = s.systime ∧
    (countspikes s).spikecount = s.spikecount + 1 ∧
    (countspikes s).ISI = (s.systime - s.spktime) * 1e-6 ∧
    (s.spktime = 1000000 → now = 6000000 →
      (execute std input now s).1.ISI = 5 ∧ (execute std input now s).2 = 5) ∧
    (run noStd (twoSpikes.take 2) (fresh 1e-3)).spktime = 1000000 ∧
    confirms ⟨0.01, 6000000⟩ (run noStd (twoSpikes.take 6) (fresh 1e-3)) ∧
    (run noStd twoSpikes (fresh 1e-3)).spktime = 6000000 ∧
    (run noStd twoSpikes (fresh 1e-3)).prevspktime = 1000000 ∧
    (run noStd twoSpikes (fresh 1e-3)).spikecount = 2 ∧
    (run noStd twoSpikes (fresh 1e-3)).ISI = 5 ∧
    outputs noStd twoSpikes (fresh 1e-3) = [0, 1, 1, 1, 1, 1, 5] := by
  have hc := detect_counts_of_confirms input now s h
  refine ⟨?_, ?_, ?_, ?_, ?_, rfl, rfl, rfl, rfl, ?_, by decide!, by decide!, by decide!,
    by decide!, by decide!, by decide!, by decide!⟩
  · simp [hc.2.1]
  · simp [hc.1]
  · simp [hc.2.2.1]
  · simp [hc.2.2.2.1]
  · simp [hc.2.2.2.1]
  · intro h1 h6
    rw [execute_fst, execute_snd, accumulate_ISI, hc.2.2.2.1, h1, h6]
    norm_num

/-- The second spike of `twoSpikes`: the module has its last event at
1000000 ns, confirms one at 6000000 ns and computes the interval 5. -/
theorem confirmed_event_interval_witness :
    confirms ⟨0.01, 6000000⟩ (run noStd (twoSpikes.take 6) (fresh 1e-3)) ∧
    (execute noStd 0.01 6000000 (run noStd (twoSpikes.take 6) (fresh 1e-3))).1.ISI =
      (6000000 - (run noStd (twoSpikes.take 6) (fresh 1e-3)).spktime) * 1e-6 :=
  have hc : confirms ⟨0.01, 6000000⟩ (run noStd (twoSpikes.take 6) (fresh 1e-3)) := by
    decide!
  ⟨hc, (confirmed_event_interval noStd 0.01 6000000
    (run noStd (twoSpikes.take 6) (fresh 1e-3)) hc).2.2.2.1⟩

/-! ## The tick on which an event is confirmed -/

/-- C1 (as stated, refuted): a fresh module is idle and the sample first
exceeds the threshold at the tick with timestamp 1000000.  The event is
confirmed on that very tick, whose resulting state is 1 (CrossedUp):
spikecount becomes 1 and spktime 1000000.  The next tick, whose resulting
state is 2 (Confirming), confirms nothing: spikecount stays 1 and spktime is
not 2000000. -/
theorem confirmation_tick_counterexample :
    confirms ⟨0.01, 1000000⟩ (fresh 1e-3) ∧
    (execute noStd 0.01 1000000 (fresh 1e-3)).1.state = 1 ∧
    (execute noStd 0.01 1000000 (fresh 1e-3)).1.spikecount = 1 ∧
    (execute noStd 0.01 1000000 (fresh 1e-3)).1.spktime = 1000000 ∧
    ¬ confirms ⟨0.02, 2000000⟩ (execute noStd 0.01 1000000 (fresh 1e-3)).1 ∧
    (run noStd [⟨0.01, 1000000⟩, ⟨0.02, 2000000⟩] (fresh 1e-3)).state = 2 ∧
    (run noStd [⟨0.01, 1000000⟩, ⟨0.02, 2000000⟩] (fresh 1e-3)).spikecount = 1 ∧
    (run noStd [⟨0.01, 1000000⟩, ⟨0.02, 2000000⟩] (fresh 1e-3)).spktime = 1000000 := by
  decide!

/-- C1 (amended): when the detector is idle (state 0), the samples of the ticks
`lows` stay at or below the threshold and the sample of tick `kt` is the first
above it, then nothing is confirmed during `lows`; the event is confirmed on
tick `kt` itself, the tick whose resulting state is 1 (CrossedUp), where
prevspktime takes the old spktime, spktime the timestamp of `kt` and
spikecount grows by one; the following tick `kt1`, whose resulting state is 2
(Confirming), confirms nothing and leaves the three values alone; over the
whole trace exactly one event is confirmed. -/
theorem event_confirmed_on_crossing_tick (std : RunningStat → ℚ) (s : SpikeStats)
    (lows : List Tick) (kt kt1 : Tick)
    (hidle : s.state = 0) (hlow : ∀ k ∈ lows, k.input ≤ s.thresh)
    (hhigh : kt.input > s.thresh) :
    eventCount std lows s = 0 ∧
    confirms kt (run std lows s) ∧
    (run std (lows ++ [kt]) s).state = 1 ∧
    (run std (lows ++ [kt]) s).prevspktime = s.spktime ∧
    (run std (lows ++ [kt]) s).spktime = kt.now ∧
    (run std (lows ++ [kt]) s).spikecount = s.spikecount + 1 ∧
    ¬ confirms kt1 (run std (lows ++ [kt]) s) ∧
    (run std (lows ++ [kt, kt1]) s).state = 2 ∧
    (run std (lows ++ [kt, kt1]) s).prevspktime = s.spktime ∧
    (run std (lows ++ [kt, kt1]) s).spktime = kt.now ∧
    (run std (lows ++ [kt, kt1]) s).spikecount = s.spikecount + 1 ∧
    eventCount std (lows ++ [kt, kt1]) s = 1 := by
  obtain ⟨h0, hspk, _, hcnt, _, hev⟩ := run_idle_lows std lows s hidle hlow
  have hconf : confirms kt (run std lows s) := by
    rw [confirms_iff, run_thresh]
    exact ⟨h0, hhigh⟩
  have hc := detect_counts_of_confirms kt.input kt.now (run std lows s) hconf
  have hstate : (run std (lows ++ [kt]) s).state = 1 := by
    rw [run_append, run_cons, run_nil, accumulate_state]
    exact hc.2.2.2.2
  have hnot : ¬ confirms kt1 (run std (lows ++ [kt]) s) := by
    rw [confirms_iff, hstate]
    intro h
    exact absurd h.1 (by decide)
  have hk := detect_keeps_of_not_confirms kt1.input kt1.now
    (accumulate std (detect kt.input kt.now (run std lows s))) (by
      have := hnot
      rw [run_append, run_cons, run_nil] at this
      exact this)
  have hstate1 : (accumulate std (detect kt.input kt.now (run std lows s))).state = 1 := by
    rw [accumulate_state]
    exact hc.2.2.2.2
  refine ⟨hev, hconf, hstate, ?_, ?_, ?_, hnot, ?_, ?_, ?_, ?_, ?_⟩
  · rw [run_append, run_cons, run_nil, accumulate_prevspktime, hc.2.1, hspk]
  · rw [run_append, run_cons, run_nil, accumulate_spktime, hc.1]
  · rw [run_append, run_cons, run_nil, accumulate_spikecount, hc.2.2.1, hcnt]
  · rw [run_append, run_cons, run_cons, run_nil, accumulate_state, detect_state, hstate1]
    simp [nextState]
  · rw [run_append, run_cons, run_cons, run_nil, accumulate_prevspktime, hk.2.1,
      accumulate_prevspktime, hc.2.1, hspk]
  · rw [run_append, run_cons, run_cons, run_nil, accumulate_spktime, hk.1,
      accumulate_spktime, hc.1]
  · rw [run_append, run_cons, run_cons, run_nil, accumulate_spikecount, hk.2.2.1,
      accumulate_spikecount, hc.2.2.1, hcnt]
  · rw [eventCount_append, hev]
    have hnot' : ¬ confirms kt1 (accumulate std (detect kt.input kt.now (run std lows s))) := by
      rw [confirms_iff, hstate1]
      intro h
      exact absurd h.1 (by decide)
    simp [eventCount, hconf, hnot']

/-- A fresh module sees one sample at rest, then the crossing at 1000000 ns,
then the peak. -/
theorem event_confirmed_on_crossing_tick_witness :
    (run noStd ([⟨-0.07, 0⟩] ++ [⟨0.01, 1000000⟩]) (fresh 1e-3)).state = 1 ∧
    (run noStd ([⟨-0.07, 0⟩] ++ [⟨0.01, 1000000⟩, ⟨0.02, 2000000⟩]) (fresh 1e-3)).state = 2 ∧
    eventCount noStd ([⟨-0.07, 0⟩] ++ [⟨0.01, 1000000⟩, ⟨0.02, 2000000⟩]) (fresh 1e-3) = 1 :=
  have h := event_confirmed_on_crossing_tick noStd (fresh 1e-3) [⟨-0.07, 0⟩]
    ⟨0.01, 1000000⟩ ⟨0.02, 2000000⟩ (by decide!) (by decide!) (by decide!)
  ⟨h.2.2.1, h.2.2.2.2.2.2.2.1, h.2.2.2.2.2.2.2.2.2.2.2⟩

/-! ## The order of the recorded event times -/

/-- C10: starting from the reset state, over every trace with non-negative,
non-decreasing timestamps, spktime >= prevspktime holds after every tick (so
in every reachable state, and after every confirmed event in particular). -/
theorem spktime_ge_prevspktime (std : RunningStat → ℚ) (s₀ : SpikeStats)
    (trace : List Tick) (hnonneg : ∀ k ∈ trace, 0 ≤ k.now) (hmono : nondecreasing trace)
    (n : ℕ) :
    (run std (trace.take n) (reset s₀)).spktime ≥
      (run std (trace.take n) (reset s₀)).prevspktime := by
  have hge : ∀ k ∈ trace.take n, (reset s₀).systime ≤ k.now := by
    intro k hk
    exact hnonneg k (List.mem_of_mem_take hk)
  exact (run_event_record_ordered std (trace.take n) (reset s₀) (le_refl _) (le_refl _)
    hge (nondecreasing_take n trace hmono)).1

/-- After both spikes of `twoSpikes` the recorded times are 1000000 and
6000000, in that order. -/
theorem spktime_ge_prevspktime_witness :
    (run noStd (twoSpikes.take 7) (reset (fresh 1e-3))).spktime ≥
      (run noStd (twoSpikes.take 7) (reset (fresh 1e-3))).prevspktime :=
  spktime_ge_prevspktime noStd (fresh 1e-3) twoSpikes (by decide!) (by decide!) 7

/-! ## The refractory period -/

/-- C2 (the code at the failing input): a fresh module after `reset` has
min_int = 0.005 s, shown as Min Interval 5 ms.  On `closeSpikes` the sample
crosses the threshold upward at 1000000 ns and again at 2000000 ns, 1 ms
later, and both crossings are confirmed: two events, and the interval the
module itself reports is ISI = 1 ms, less than the minimum interval of 5 ms.
The switch compares the clock difference, in ns, with min_int, in s, so the
refractory state is left after 0.005 ns. -/
theorem refractory_not_enforced :
    nondecreasing closeSpikes ∧
    (reset (fresh 1e-3)).min_int * 1000 = 5 ∧
    closeSpikes.take 2 = [⟨-0.07, 800000⟩, ⟨0.01, 1000000⟩] ∧
    (closeSpikes.drop 5).take 2 = [⟨-0.07, 1800000⟩, ⟨0.01, 2000000⟩] ∧
    confirms ⟨0.01, 1000000⟩ (run noStd (closeSpikes.take 1) (reset (fresh 1e-3))) ∧
    (run noStd (closeSpikes.take 5) (reset (fresh 1e-3))).state = -1 ∧
    ((1800000 : ℚ) - 1000000) * 1e-9 < (reset (fresh 1e-3)).min_int ∧
    (run noStd (closeSpikes.take 6) (reset (fresh 1e-3))).state = 0 ∧
    confirms ⟨0.01, 2000000⟩ (run noStd (closeSpikes.take 6) (reset (fresh 1e-3))) ∧
    eventCount noStd closeSpikes (reset (fresh 1e-3)) = 2 ∧
    (run noStd closeSpikes (reset (fresh 1e-3))).prevspktime = 1000000 ∧
    (run noStd closeSpikes (reset (fresh 1e-3))).spktime = 2000000 ∧
    (run noStd closeSpikes (reset (fresh 1e-3))).ISI = 1 ∧
    (run noStd closeSpikes (reset (fresh 1e-3))).ISI <
      (reset (fresh 1e-3)).min_int * 1000 := by
  decide!

/-! ## Release from the refractory period -/

/-- C4: starting from the reset state, over every trace in which at most two
events have been confirmed (so on every tick up to and including that of the
second confirmed event) nothing has been pushed: the accumulator is still
cleared and ISImean, ISIstd and CV are still 0.  When the next tick `k`
confirms the third event, that tick pushes one value, the interval of that
event, (now - previous spktime) * 1e-6, into the cleared accumulator. -/
theorem startup_intervals_excluded (std : RunningStat → ℚ) (s₀ : SpikeStats)
    (trace : List Tick) (k : Tick)
    (h : eventCount std trace (reset s₀) ≤ 2) :
    (run std trace (reset s₀)).runningPeriod =
      { count := 0, mean := 0, sumSquaredDelta := 0 } ∧
    (run std trace (reset s₀)).ISImean = 0 ∧
    (run std trace (reset s₀)).ISIstd = 0 ∧
    (run std trace (reset s₀)).CV = some 0 ∧
    (eventCount std trace (reset s₀) = 2 → confirms k (run std trace (reset s₀)) →
      (run std (trace ++ [k]) (reset s₀)).ISI =
        (k.now - (run std trace (reset s₀)).spktime) * 1e-6 ∧
      (run std (trace ++ [k]) (reset s₀)).runningPeriod =
        RunningStat.push { count := 0, mean := 0, sumSquaredDelta := 0 }
          (run std (trace ++ [k]) (reset s₀)).ISI ∧
      (run std (trace ++ [k]) (reset s₀)).runningPeriod.count = 1 ∧
      (run std (trace ++ [k]) (reset s₀)).ISImean =
        (run std (trace ++ [k]) (reset s₀)).ISI) := by
  have hq : (reset s₀).spikecount + (eventCount std trace (reset s₀) : ℚ) ≤ 2 := by
    have : (eventCount std trace (reset s₀) : ℚ) ≤ 2 := by exact_mod_cast h
    simpa [reset] using this
  obtain ⟨h1, h2, h3, h4⟩ := run_without_push std trace (reset s₀) hq
  refine ⟨h1, h2, h3, h4, ?_⟩
  intro htwo hk
  have hcnt : (run std trace (reset s₀)).spikecount = 2 := by
    rw [run_spikecount, htwo]
    simp [reset]
  have hd := detect_counts_of_confirms k.input k.now _ hk
  have hgt : (detect k.input k.now (run std trace (reset s₀))).spikecount > 2 := by
    rw [hd.2.2.1, hcnt]
    norm_num
  have hrp : (detect k.input k.now (run std trace (reset s₀))).runningPeriod =
      { count := 0, mean := 0, sumSquaredDelta := 0 } := by
    rw [detect_runningPeriod]
    exact h1
  have hrun : run std (trace ++ [k]) (reset s₀) =
      accumulate std (detect k.input k.now (run std trace (reset s₀))) := by
    rw [run_append, run_cons, run_nil]
  rw [hrun]
  refine ⟨?_, ?_, ?_, ?_⟩
  · rw [accumulate_ISI, hd.2.2.2.1]
  · rw [accumulate_ISI]
    unfold accumulate
    rw [if_pos hgt]
    simp only
    rw [hrp]
  · unfold accumulate
    rw [if_pos hgt]
    simp only
    rw [hrp]
    rfl
  · rw [accumulate_ISI]
    unfold accumulate
    rw [if_pos hgt]
    simp only
    rw [hrp]
    simp [RunningStat.push]

/-- Up to the tick before the third spike of `threeSpikes` nothing has been
pushed; the tick of the third spike pushes one value. -/
theorem startup_intervals_excluded_witness :
    eventCount noStd (threeSpikes.take 11) (reset (fresh 1e-3)) ≤ 2 ∧
    (run noStd (threeSpikes.take 11) (reset (fresh 1e-3))).runningPeriod =
      { count := 0, mean := 0, sumSquaredDelta := 0 } ∧
    (run noStd (threeSpikes.take 11 ++ [⟨0.01, 11000000⟩])
      (reset (fresh 1e-3))).runningPeriod.count = 1 :=
  have h : eventCount noStd (threeSpikes.take 11) (reset (fresh 1e-3)) ≤ 2 := by decide!
  have hthm := startup_intervals_excluded noStd (fresh 1e-3) (threeSpikes.take 11)
    ⟨0.01, 11000000⟩ h
  ⟨h, hthm.1, (hthm.2.2.2.2 (by decide!) (by decide!)).2.2.1⟩

/-- C3 (the code at the failing input): after the three spikes of
`threeSpikes`, from the reset state, three events are confirmed and one value
has been pushed.  The next tick, the peak of the third spike, confirms no
event, and yet `execute` pushes the interval 5 a second time: the accumulator
holds 2 values after 3 confirmed events, not 3 - 2 = 1. -/
theorem push_without_event :
    eventCount noStd threeSpikes (reset (fresh 1e-3)) = 3 ∧
    (run noStd threeSpikes (reset (fresh 1e-3))).runningPeriod.count = 1 ∧
    ¬ confirms ⟨0.02, 12000000⟩ (run noStd threeSpikes (reset (fresh 1e-3))) ∧
    eventCount noStd (threeSpikes ++ [⟨0.02, 12000000⟩]) (reset (fresh 1e-3)) = 3 ∧
    (run noStd (threeSpikes ++ [⟨0.02, 12000000⟩]) (reset (fresh 1e-3))).ISI = 5 ∧
    (run noStd (threeSpikes ++ [⟨0.02, 12000000⟩])
      (reset (fresh 1e-3))).runningPeriod.count = 2 := by
  decide!

/-! ## The coefficient of variation -/

end SpikeStatistics
